import Mathlib

/-!
Shallow embedding of the visibility-driven scheduling and state-management
layer of the React-Infinite-Scroll-and-Lazy-Loading repository
(`src/App.js` and `src/customHooks.js`).

The embedding covers:
* the two reducers `imgReducer` and `pageReducer` (switch on `action.type`);
* the dispatch sequences emitted by `useFetch` on effect run, fetch success
  and fetch failure;
* the effect-dependency semantics of `useFetch` (`[dispatch, data.page]`):
  a fetch is issued on the first render and whenever `page` differs from the
  previous render's value;
* the `IntersectionObserver` callback of `useInfiniteScroll` (dispatch
  `ADVANCE_PAGE` for each entry with positive intersection ratio);
* the per-element watch lifecycle of `useLazyLoading` (re-register every
  matching element on each effect run; on a qualifying intersection, swap
  `src` from `dataset.src` or log a diagnostic, then `unobserve` the node);
* a session model with mount/unmount recording that the hooks install no
  effect cleanup and no unmount guard around `dispatch`.
-/

/-- An element of the JSON array returned by
`https://picsum.photos/v2/list?page=P&limit=10`; `App.js` reads `author` and
`download_url` from each record. -/
structure ImageRecord where
  id : String
  author : String
  download_url : String
deriving DecidableEq, Repr

/-- The state managed by `imgReducer`: `{ images: [], fetching: true }`
initially. -/
structure ImgState where
  images : List ImageRecord
  fetching : Bool
deriving DecidableEq, Repr

/-- An action object dispatched to `imgReducer`. In JS this is
`{ type, images?, fetching? }`; fields not read by the matched case are
irrelevant, so they are carried totally here. -/
structure ImgAction where
  type : String
  images : List ImageRecord
  fetching : Bool
deriving DecidableEq, Repr

/-- `imgReducer` from `src/App.js` / the component using `customHooks.js`:
`STACK_IMAGES` concatenates `action.images` onto `state.images`,
`FETCHING_IMAGES` overwrites `state.fetching` with `action.fetching`,
and the `default` branch returns the state unchanged. -/
def imgReducer (state : ImgState) (action : ImgAction) : ImgState :=
  if action.type = "STACK_IMAGES" then
    { state with images := state.images ++ action.images }
  else if action.type = "FETCHING_IMAGES" then
    { state with fetching := action.fetching }
  else
    state

/-- Initial `imgData` state: `{ images: [], fetching: true }`. -/
def imgInit : ImgState := { images := [], fetching := true }

/-- The state managed by `pageReducer`: `{ page: 0 }` initially. -/
structure PageState where
  page : Nat
deriving DecidableEq, Repr

/-- An action object dispatched to `pageReducer` (only `type` is read). -/
structure PageAction where
  type : String
deriving DecidableEq, Repr

/-- `pageReducer` from `src/App.js`: `ADVANCE_PAGE` increments `page` by 1,
the `default` branch returns the state unchanged. -/
def pageReducer (state : PageState) (action : PageAction) : PageState :=
  if action.type = "ADVANCE_PAGE" then
    { state with page := state.page + 1 }
  else
    state

/-- Initial `pager` state: `{ page: 0 }`. -/
def pageInit : PageState := { page := 0 }

/-- `dispatch({ type: 'STACK_IMAGES', images })`. -/
def stackImagesAction (images : List ImageRecord) : ImgAction :=
  { type := "STACK_IMAGES", images := images, fetching := false }

/-- `dispatch({ type: 'FETCHING_IMAGES', fetching })`. -/
def fetchingImagesAction (fetching : Bool) : ImgAction :=
  { type := "FETCHING_IMAGES", images := [], fetching := fetching }

/-- `dispatch({ type: 'ADVANCE_PAGE' })`. -/
def advancePageAction : PageAction := { type := "ADVANCE_PAGE" }

/-- Dispatch a sequence of actions to `imgReducer`, in order. -/
def applyImg (s : ImgState) (actions : List ImgAction) : ImgState :=
  actions.foldl imgReducer s

/-- Dispatch a sequence of actions to `pageReducer`, in order. -/
def applyPage (s : PageState) (actions : List PageAction) : PageState :=
  actions.foldl pageReducer s

/-- A fetch request as built by `useFetch`'s URL template
(`https://picsum.photos/v2/list` with `page` interpolated from `data.page`
and `limit=10`): the two query parameters made explicit. -/
structure FetchRequest where
  page : Nat
  limit : Nat
deriving DecidableEq, Repr

/-- The request `useFetch` issues for a given `data.page` value: limit is the
literal `10` in the URL. -/
def issueFetch (page : Nat) : FetchRequest := { page := page, limit := 10 }

/-- The URL string the request corresponds to. -/
def fetchUrl (r : FetchRequest) : String :=
  "https://picsum.photos/v2/list?page=" ++ toString r.page ++ "&limit=" ++ toString r.limit

/-- Everything a fetch resolution does, read off from the `then`/`catch`
handlers of `useFetch` in `customHooks.js`: the `imgReducer` actions it
dispatches in order, the `pageReducer` actions it dispatches, the new fetch
requests it issues, and the console diagnostics it emits. -/
structure FetchOutcome where
  imgActions : List ImgAction
  pageActions : List PageAction
  newRequests : List FetchRequest
  log : List String
deriving DecidableEq, Repr

/-- The success path of `useFetch`:
`dispatch({ type: 'STACK_IMAGES', images })` then
`dispatch({ type: 'FETCHING_IMAGES', fetching: false })`; nothing else. -/
def fetchOnSuccess (records : List ImageRecord) : FetchOutcome :=
  { imgActions := [stackImagesAction records, fetchingImagesAction false],
    pageActions := [], newRequests := [], log := [] }

/-- The failure path (`catch`) of `useFetch`:
`dispatch({ type: 'FETCHING_IMAGES', fetching: false }); return e;`
— no append, no retry, no page action, no log. -/
def fetchOnFailure : FetchOutcome :=
  { imgActions := [fetchingImagesAction false],
    pageActions := [], newRequests := [], log := [] }

/-- The dispatch the `useFetch` effect body performs before issuing the
request: `dispatch({ type: 'FETCHING_IMAGES', fetching: true })`. -/
def beginFetchActions : List ImgAction := [fetchingImagesAction true]

/-- What `data.json()` yields for an HTTP response's body: rejection when the
body is not valid JSON, or the parsed record array. -/
inductive ResponseBody where
  | invalidJson
  | jsonRecords (records : List ImageRecord)
deriving DecidableEq, Repr

/-- How a `fetch(...)` call can end: `fetch` itself rejects only on a network
error; otherwise an HTTP response arrives, with a status code and a body. -/
inductive FetchResult where
  | networkError
  | response (status : Nat) (body : ResponseBody)
deriving DecidableEq, Repr

/-- The whole promise chain of `useFetch`,
`fetch(url).then(data => data.json()).then(images => ...).catch(e => ...)`:
a network error rejects `fetch` and lands in `catch`; a body that is not
valid JSON makes `data.json()` reject and also lands in `catch`; any body
that parses as a record array reaches the success handler. The code never
inspects `response.ok` or the status code, so the status is ignored here —
a non-2xx response with a JSON body takes the success path. -/
def fetchChainOutcome : FetchResult → FetchOutcome
  | .networkError => fetchOnFailure
  | .response _ .invalidJson => fetchOnFailure
  | .response _ (.jsonRecords records) => fetchOnSuccess records

/-- An `IntersectionObserverEntry` as read by the callbacks: only
`intersectionRatio` is inspected for control flow. -/
structure ObserverEntry where
  intersectionRatio : ℚ
deriving DecidableEq, Repr

/-- The `useInfiniteScroll` observer callback: for each entry `en`,
`if (en.intersectionRatio > 0) dispatch({ type: 'ADVANCE_PAGE' })`. -/
def scrollCallback : List ObserverEntry → List PageAction
  | [] => []
  | en :: rest =>
      if 0 < en.intersectionRatio then advancePageAction :: scrollCallback rest
      else scrollCallback rest

/-- The sequence of `pager.page` values over the renders of a session,
starting from state `s`: one value per render, renders being driven by the
dispatched page actions. -/
def pageValuesFrom (s : PageState) : List PageAction → List Nat
  | [] => [s.page]
  | a :: rest => s.page :: pageValuesFrom (pageReducer s a) rest

/-- `pager.page` render values of a full session starting at `{ page: 0 }`. -/
def pageValues (actions : List PageAction) : List Nat :=
  pageValuesFrom pageInit actions

/-- React effect-dependency semantics for `useFetch`'s `[dispatch, data.page]`
on the renders after the first: the effect re-runs exactly when `page`
differs from its value at the previous render (`dispatch` is stable). -/
def issuedAux (prev : Nat) : List Nat → List Nat
  | [] => []
  | q :: rest => if q = prev then issuedAux prev rest else q :: issuedAux q rest

/-- The page numbers `useFetch` fetches across a session's renders: the
effect runs on the first render and then once per change of `data.page`. -/
def issuedFetches : List Nat → List Nat
  | [] => []
  | p :: rest => p :: issuedAux p rest

/-- An `<img>` element as `useLazyLoading` sees it: the rendered `src`
(initially the placeholder URL) and the `data-src` side-channel attribute
(`none` when the attribute is missing; the JS guard `!newImgSrc` also treats
the empty string as missing). -/
structure LazyElem where
  src : String
  dataSrc : Option String
deriving DecidableEq, Repr

/-- `!newImgSrc` in JS: true when `dataset.src` is `undefined` or `""`. -/
def srcMissing : Option String → Bool
  | none => true
  | some u => u.isEmpty

/-- State of the lazy-loading layer: the matching `.card-img-top` elements
(indexed by position), the multiset of element indices with an active
`IntersectionObserver` watch, and bookkeeping logs — every watch ever
attached, every callback firing, and every
`console.error('Image source is invalid')` diagnostic, each recorded as the
element index concerned. -/
structure LazyState where
  elems : List LazyElem
  watches : List Nat
  attachLog : List Nat
  fireLog : List Nat
  errorLog : List Nat
deriving DecidableEq, Repr

/-- Events driving `useLazyLoading`:
`registerPass` is one run of its effect (re-query all matching elements and
call `imgObserver` on each, creating a fresh observer per element);
`fire i ratio` is an intersection entry with the given ratio delivered to one
active watch on element `i`. -/
inductive LazyEvent where
  | registerPass
  | fire (i : Nat) (ratio : ℚ)
deriving DecidableEq, Repr

/-- One step of the lazy-loading layer, read off from `useLazyLoading` in
`customHooks.js`. A `registerPass` observes every matching element (the
effect re-runs whenever `items` changes and rescans with
`document.querySelectorAll`). A `fire` with positive ratio on an element
with an active watch runs the callback body: read `dataset.src`; if falsy,
`console.error('Image source is invalid')`, else assign it to `src`; in
either case `intObs.unobserve(node)` detaches that watch. A fire with
non-positive ratio, or on an element with no active watch, does nothing. -/
def lazyStep (s : LazyState) (e : LazyEvent) : LazyState :=
  match e with
  | .registerPass =>
      { s with watches := s.watches ++ List.range s.elems.length,
               attachLog := s.attachLog ++ List.range s.elems.length }
  | .fire i ratio =>
      if i ∈ s.watches then
        if 0 < ratio then
          match s.elems[i]? with
          | none => s
          | some el =>
              if srcMissing el.dataSrc then
                { s with errorLog := s.errorLog ++ [i],
                         fireLog := s.fireLog ++ [i],
                         watches := s.watches.erase i }
              else
                { s with elems := s.elems.set i { el with src := el.dataSrc.getD el.src },
                         fireLog := s.fireLog ++ [i],
                         watches := s.watches.erase i }
        else s
      else s

/-- Lazy-loading state at mount: elements rendered, no watch attached yet. -/
def lazyInit (elems : List LazyElem) : LazyState :=
  { elems := elems, watches := [], attachLog := [], fireLog := [], errorLog := [] }

/-- Run a sequence of lazy-loading events. -/
def runLazy (s : LazyState) (events : List LazyEvent) : LazyState :=
  events.foldl lazyStep s

/-- A whole component session around `useFetch`: the `imgData` container,
whether a fetch is in flight, how many requests were issued, and whether the
component is still mounted. -/
structure SessionState where
  img : ImgState
  inFlight : Bool
  issued : Nat
  mounted : Bool
deriving DecidableEq, Repr

/-- Session events: the `useFetch` effect body runs and issues a request;
the in-flight fetch resolves with records or rejects; the component
unmounts. -/
inductive SessionEvent where
  | issue
  | resolveOk (records : List ImageRecord)
  | resolveFail
  | unmount
deriving DecidableEq, Repr

/-- One session step. `issue` performs the effect body:
`dispatch(FETCHING_IMAGES, true)` and the `fetch(...)` call. `resolveOk` /
`resolveFail` perform the `then` / `catch` handlers. The handlers in
`customHooks.js` call `dispatch` unconditionally — there is no
mounted-guard — and none of the three hooks' effects returns a cleanup
function, so `unmount` changes nothing except the `mounted` flag: watches
stay attached and a later resolution still dispatches into the container. -/
def sessionStep (s : SessionState) (e : SessionEvent) : SessionState :=
  match e with
  | .issue =>
      { s with img := applyImg s.img beginFetchActions,
               inFlight := true, issued := s.issued + 1 }
  | .resolveOk records =>
      { s with img := applyImg s.img (fetchOnSuccess records).imgActions,
               inFlight := false }
  | .resolveFail =>
      { s with img := applyImg s.img fetchOnFailure.imgActions,
               inFlight := false }
  | .unmount =>
      { s with mounted := false }

/-- Session state at mount: `imgData = { images: [], fetching: true }`,
nothing issued yet, nothing in flight. -/
def sessionInit : SessionState :=
  { img := imgInit, inFlight := false, issued := 0, mounted := true }

/-- Run a sequence of session events. -/
def runSession (events : List SessionEvent) : SessionState :=
  events.foldl sessionStep sessionInit

/-- The page counter never decreases under any dispatched action. -/
theorem pageReducer_mono (t : PageState) (a : PageAction) : t.page ≤ (pageReducer t a).page := by
  unfold pageReducer
  split
  · exact Nat.le_succ _
  · exact Nat.le_refl _

/-- `ADVANCE_PAGE` increments the page by exactly one. -/
theorem pageReducer_advance (t : PageState) :
    (pageReducer t advancePageAction).page = t.page + 1 := rfl

/-- Folding the scroll-observer callback's dispatches over `pageReducer`
adds one to the page per entry with positive intersection ratio. -/
theorem applyPage_scrollCallback (entries : List ObserverEntry) (s : PageState) :
    (applyPage s (scrollCallback entries)).page
      = s.page + (entries.filter fun en => 0 < en.intersectionRatio).length := by
  induction entries generalizing s with
  | nil => simp [applyPage, scrollCallback]
  | cons en rest ih =>
      by_cases h : 0 < en.intersectionRatio
      · have hstep : applyPage s (scrollCallback (en :: rest))
            = applyPage (pageReducer s advancePageAction) (scrollCallback rest) := by
          simp [scrollCallback, h, applyPage]
        rw [hstep, ih, pageReducer_advance]
        simp [List.filter_cons, h]
        omega
      · have hstep : applyPage s (scrollCallback (en :: rest)) = applyPage s (scrollCallback rest) := by
          simp [scrollCallback, h]
        rw [hstep, ih]
        simp [List.filter_cons, h]

/-- C1: for every sequence of sentinel-intersection entries delivered to the
`useInfiniteScroll` callback, the page counter afterwards equals its value
before plus the number of accepted entries (positive intersection ratio);
the page starts at 0, never decreases under any action, and each
`ADVANCE_PAGE` increments it by exactly 1. -/
theorem page_counter_advances_once_per_accepted_event
    (entries : List ObserverEntry) (s : PageState) :
    (applyPage s (scrollCallback entries)).page
        = s.page + (entries.filter fun en => 0 < en.intersectionRatio).length
      ∧ pageInit.page = 0
      ∧ (∀ t a, t.page ≤ (pageReducer t a).page)
      ∧ (∀ t, (pageReducer t advancePageAction).page = t.page + 1) :=
  ⟨applyPage_scrollCallback entries s, rfl, pageReducer_mono, pageReducer_advance⟩

/-- C6: the images list is append-only under every `imgReducer` action —
the previous list is always a prefix (some suffix is appended) — and
`STACK_IMAGES` appends exactly the received records, which may be empty. -/
theorem images_append_only (s : ImgState) (a : ImgAction) (records : List ImageRecord) :
    (∃ t, (imgReducer s a).images = s.images ++ t)
      ∧ (imgReducer s (stackImagesAction records)).images = s.images ++ records
      ∧ (imgReducer s (stackImagesAction [])).images = s.images := by
  refine ⟨?_, rfl, by simp [imgReducer, stackImagesAction]⟩
  unfold imgReducer
  split
  · exact ⟨a.images, rfl⟩
  · split
    · exact ⟨[], by simp⟩
    · exact ⟨[], by simp⟩

/-- C4: a successful fetch resolution dispatches `STACK_IMAGES` and then
`FETCHING_IMAGES false`, in that order; afterwards the images list is the
old list concatenated with the returned records (unchanged when the array
is empty), `fetching` is false, and nothing is logged. -/
theorem fetch_success_appends_then_ends (s : ImgState) (records : List ImageRecord) :
    (fetchOnSuccess records).imgActions
        = [stackImagesAction records, fetchingImagesAction false]
      ∧ (applyImg s (fetchOnSuccess records).imgActions).images = s.images ++ records
      ∧ (applyImg s (fetchOnSuccess records).imgActions).fetching = false
      ∧ (applyImg s (fetchOnSuccess []).imgActions).images = s.images
      ∧ (fetchOnSuccess records).log = [] :=
  ⟨rfl, rfl, rfl, by simp [fetchOnSuccess, applyImg, imgReducer, stackImagesAction,
    fetchingImagesAction], rfl⟩

/-- C5 counterexample: a non-2xx response (status 500) whose body parses as
JSON is one of the failure classes the claim names, yet the code — which
never inspects the response status — sends it down the success path:
`STACK_IMAGES` fires and the images list changes, so "only END_FETCH fires"
and "the images list is left exactly as it was" are both false there. -/
theorem non2xx_json_response_appends :
    (fetchChainOutcome (.response 500
        (.jsonRecords [{ id := "a", author := "X", download_url := "u1" }]))).imgActions
      = [stackImagesAction [{ id := "a", author := "X", download_url := "u1" }],
         fetchingImagesAction false]
    ∧ (applyImg imgInit (fetchChainOutcome (.response 500
        (.jsonRecords [{ id := "a", author := "X", download_url := "u1" }]))).imgActions).images
      = [{ id := "a", author := "X", download_url := "u1" }] := by decide

/-- C5 (amended): for every fetch rejection — a network error, or a body
that is not valid JSON (the only ways the promise chain rejects, since the
code never checks the response status) — only `FETCHING_IMAGES false` is
dispatched: afterwards `fetching` is false and the images list is exactly
as before; no new request is issued (no retry) and no page action is
dispatched, so the page counter is not rolled back. A non-2xx response
whose body parses as a record array is not treated as a failure: it follows
the success path and appends the parsed records. -/
theorem fetch_rejection_only_ends (s : ImgState) (ps : PageState) (status : Nat)
    (records : List ImageRecord) :
    fetchChainOutcome .networkError = fetchOnFailure
      ∧ fetchChainOutcome (.response status .invalidJson) = fetchOnFailure
      ∧ fetchOnFailure.imgActions = [fetchingImagesAction false]
      ∧ (applyImg s fetchOnFailure.imgActions).images = s.images
      ∧ (applyImg s fetchOnFailure.imgActions).fetching = false
      ∧ fetchOnFailure.newRequests = []
      ∧ fetchOnFailure.pageActions = []
      ∧ applyPage ps fetchOnFailure.pageActions = ps
      ∧ fetchChainOutcome (.response status (.jsonRecords records)) = fetchOnSuccess records :=
  ⟨rfl, rfl, rfl, rfl, rfl, rfl, rfl, rfl, rfl⟩

/-- C10: `FETCHING_IMAGES` leaves `images` unchanged, `STACK_IMAGES` leaves
`fetching` unchanged, `ADVANCE_PAGE` only replaces `page` with `page + 1`,
and an action whose type is none of the named ones leaves either reducer's
state completely unchanged. -/
theorem reducer_frame_conditions (s : ImgState) (ps : PageState)
    (a : ImgAction) (pa : PageAction) (records : List ImageRecord) (f : Bool) :
    (imgReducer s (fetchingImagesAction f)).images = s.images
      ∧ (imgReducer s (stackImagesAction records)).fetching = s.fetching
      ∧ pageReducer ps advancePageAction = { page := ps.page + 1 }
      ∧ (a.type ≠ "STACK_IMAGES" → a.type ≠ "FETCHING_IMAGES" → imgReducer s a = s)
      ∧ (pa.type ≠ "ADVANCE_PAGE" → pageReducer ps pa = ps) := by
  refine ⟨rfl, rfl, rfl, ?_, ?_⟩
  · intro h1 h2
    simp [imgReducer, h1, h2]
  · intro h
    simp [pageReducer, h]

/-- C10 witness: an unrecognized action type is a no-op for both reducers. -/
theorem reducer_frame_conditions_witness :
    imgReducer imgInit { type := "FOO", images := [], fetching := false } = imgInit
      ∧ pageReducer pageInit { type := "FOO" } = pageInit :=
  ⟨(reducer_frame_conditions imgInit pageInit
      { type := "FOO", images := [], fetching := false } { type := "FOO" } [] false).2.2.2.1
      (by decide) (by decide),
   (reducer_frame_conditions imgInit pageInit
      { type := "FOO", images := [], fetching := false } { type := "FOO" } [] false).2.2.2.2
      (by decide)⟩

/-- Every rendered page value is at least the starting state's page. -/
theorem pageValuesFrom_le (s : PageState) (actions : List PageAction) :
    ∀ x ∈ pageValuesFrom s actions, s.page ≤ x := by
  induction actions generalizing s with
  | nil =>
      intro x hx
      simp only [pageValuesFrom, List.mem_singleton] at hx
      omega
  | cons a rest ih =>
      intro x hx
      simp only [pageValuesFrom, List.mem_cons] at hx
      rcases hx with rfl | hx
      · exact Nat.le_refl _
      · exact Nat.le_trans (pageReducer_mono s a) (ih (pageReducer s a) x hx)

/-- The sequence of rendered page values is monotonically non-decreasing. -/
theorem pageValuesFrom_sorted (s : PageState) (actions : List PageAction) :
    List.Sorted (· ≤ ·) (pageValuesFrom s actions) := by
  induction actions generalizing s with
  | nil => simp [pageValuesFrom]
  | cons a rest ih =>
      refine List.sorted_cons.mpr ⟨?_, ih (pageReducer s a)⟩
      intro b hb
      exact Nat.le_trans (pageReducer_mono s a) (pageValuesFrom_le (pageReducer s a) rest b hb)

/-- On the renders after the first, the effect fires once per change of the
page value; over a non-decreasing value sequence, each value strictly above
the first render's value is fetched exactly once. -/
theorem issuedAux_count (p : Nat) :
    ∀ (l : List Nat) (prev : Nat), List.Sorted (· ≤ ·) (prev :: l) →
      (issuedAux prev l).count p = if p ∈ l ∧ prev < p then 1 else 0 := by
  intro l
  induction l with
  | nil =>
      intro prev _
      simp [issuedAux]
  | cons q rest ih =>
      intro prev hs
      have h1 := List.sorted_cons.mp hs
      have hpq : prev ≤ q := h1.1 q (List.mem_cons_self q rest)
      have hqrest : List.Sorted (· ≤ ·) (q :: rest) := h1.2
      by_cases hq : q = prev
      · subst hq
        rw [issuedAux, if_pos rfl, ih q hqrest]
        have hiff : (p ∈ rest ∧ q < p) ↔ (p ∈ q :: rest ∧ q < p) := by
          constructor
          · rintro ⟨hm, hl⟩
            exact ⟨List.mem_cons_of_mem q hm, hl⟩
          · rintro ⟨hm, hl⟩
            rcases List.mem_cons.mp hm with rfl | hm'
            · exact absurd hl (Nat.lt_irrefl p)
            · exact ⟨hm', hl⟩
        rw [if_congr hiff rfl rfl]
      · have hlt : prev < q := Nat.lt_of_le_of_ne hpq (fun e => hq e.symm)
        rw [issuedAux, if_neg hq, List.count_cons, ih q hqrest]
        by_cases hpq2 : p = q
        · subst hpq2
          simp [Nat.lt_irrefl, hlt]
        · have hbeq : (q == p) = false := by
            simp only [beq_eq_false_iff_ne, ne_eq]
            exact fun e => hpq2 e.symm
          have hq_le : ∀ x ∈ rest, q ≤ x := (List.sorted_cons.mp hqrest).1
          have hiff : (p ∈ rest ∧ q < p) ↔ (p ∈ q :: rest ∧ prev < p) := by
            constructor
            · rintro ⟨hm, hl⟩
              exact ⟨List.mem_cons_of_mem q hm, Nat.lt_trans hlt hl⟩
            · rintro ⟨hm, hl⟩
              rcases List.mem_cons.mp hm with rfl | hm'
              · exact absurd rfl hpq2
              · exact ⟨hm', Nat.lt_of_le_of_ne (hq_le p hm') (fun e => hpq2 e.symm)⟩
          rw [if_congr hiff rfl rfl, hbeq]
          simp

/-- Over a non-decreasing render sequence, the effect-dependency semantics
issue exactly one fetch per distinct page value appearing in the sequence. -/
theorem issuedFetches_count (l : List Nat) (hs : List.Sorted (· ≤ ·) l) (p : Nat) :
    (issuedFetches l).count p = if p ∈ l then 1 else 0 := by
  cases l with
  | nil => simp [issuedFetches]
  | cons p0 rest =>
      rw [issuedFetches, List.count_cons, issuedAux_count p rest p0 hs]
      have h1 := List.sorted_cons.mp hs
      by_cases hp : p = p0
      · subst hp
        simp [Nat.lt_irrefl]
      · have hbeq : (p0 == p) = false := by
          simp only [beq_eq_false_iff_ne, ne_eq]
          exact fun e => hp e.symm
        have hiff : (p ∈ rest ∧ p0 < p) ↔ p ∈ p0 :: rest := by
          constructor
          · rintro ⟨hm, _⟩
            exact List.mem_cons_of_mem p0 hm
          · intro hm
            rcases List.mem_cons.mp hm with rfl | hm'
            · exact absurd rfl hp
            · exact ⟨hm', Nat.lt_of_le_of_ne (h1.1 p hm') (fun e => hp e.symm)⟩
        rw [if_congr hiff rfl rfl, hbeq]
        simp

/-- C3: across a session's renders (driven by any sequence of page actions
starting from page 0), `useFetch` issues exactly one fetch for every value
the page counter takes and none for any other value — in particular no fetch
is reissued for a page whose fetch already completed — and every issued
request carries `limit=10`, matching the literal URL template. -/
theorem fetch_issued_once_per_page_value (actions : List PageAction) (p q : Nat) :
    (issuedFetches (pageValues actions)).count p
        = (if p ∈ pageValues actions then 1 else 0)
      ∧ (issueFetch q).limit = 10
      ∧ (issueFetch q).page = q
      ∧ fetchUrl (issueFetch q)
          = "https://picsum.photos/v2/list?page=" ++ toString q ++ "&limit=10" := by
  refine ⟨issuedFetches_count _ (pageValuesFrom_sorted pageInit actions) p, rfl, rfl, ?_⟩
  have h : ("&limit=" ++ toString (10 : Nat)) = "&limit=10" := by decide
  show "https://picsum.photos/v2/list?page=" ++ toString q ++ "&limit=" ++ toString (10 : Nat)
      = "https://picsum.photos/v2/list?page=" ++ toString q ++ "&limit=10"
  rw [String.append_assoc, h]

/-- Appending one firing for `j` and erasing one watch on `j` preserves the
fire/watch/attach balance for every element index. -/
theorem count_fire_erase (fl ws al : List Nat) (j i : Nat) (hw : j ∈ ws)
    (h : fl.count i + ws.count i = al.count i) :
    (fl ++ [j]).count i + (ws.erase j).count i = al.count i := by
  by_cases hij : i = j
  · subst hij
    rw [List.count_append, List.count_erase_self]
    have h1 : 0 < ws.count i := List.count_pos_iff.mpr hw
    have h2 : ([i] : List Nat).count i = 1 := by simp
    omega
  · rw [List.count_append, List.count_erase_of_ne hij]
    have h2 : ([j] : List Nat).count i = 0 := by simp [hij]
    omega

/-- One lazy-loading step preserves the invariant that, per element, firings
plus still-active watches equal watches ever attached. -/
theorem lazyStep_balance (s : LazyState) (e : LazyEvent)
    (h : ∀ i, s.fireLog.count i + s.watches.count i = s.attachLog.count i) :
    ∀ i, (lazyStep s e).fireLog.count i + (lazyStep s e).watches.count i
      = (lazyStep s e).attachLog.count i := by
  intro i
  cases e with
  | registerPass =>
      simp only [lazyStep, List.count_append]
      have := h i
      omega
  | fire j ratio =>
      by_cases hw : j ∈ s.watches
      · by_cases hr : 0 < ratio
        · cases hel : s.elems[j]? with
          | none =>
              simp only [lazyStep, hw, hr, hel, if_true]
              exact h i
          | some el =>
              cases hsm : srcMissing el.dataSrc
              · simp only [lazyStep, hw, hr, hel, hsm, if_true, Bool.false_eq_true,
                  if_false]
                exact count_fire_erase s.fireLog s.watches s.attachLog j i hw (h i)
              · simp only [lazyStep, hw, hr, hel, hsm, if_true]
                exact count_fire_erase s.fireLog s.watches s.attachLog j i hw (h i)
        · simp only [lazyStep, hw, hr, if_true, if_false]
          exact h i
      · simp only [lazyStep, hw, if_false]
        exact h i

/-- The fire/watch/attach balance holds along any event sequence. -/
theorem runLazy_balance (events : List LazyEvent) (s : LazyState)
    (h : ∀ i, s.fireLog.count i + s.watches.count i = s.attachLog.count i) :
    ∀ i, (runLazy s events).fireLog.count i + (runLazy s events).watches.count i
      = (runLazy s events).attachLog.count i := by
  induction events generalizing s with
  | nil => exact h
  | cons e rest ih => exact ih (lazyStep s e) (lazyStep_balance s e h)

/-- A qualifying firing on an actively watched element detaches that watch
immediately (`unobserve`) and records exactly one firing. -/
theorem lazyStep_fire_detaches (t : LazyState) (j : Nat) (r : ℚ)
    (hw : j ∈ t.watches) (hr : 0 < r) (hj : j < t.elems.length) :
    (lazyStep t (.fire j r)).watches = t.watches.erase j
      ∧ (lazyStep t (.fire j r)).fireLog = t.fireLog ++ [j] := by
  have hel : t.elems[j]? = some t.elems[j] := List.getElem?_eq_getElem hj
  cases hsm : srcMissing t.elems[j].dataSrc
  · constructor <;>
      simp [lazyStep, hw, hr, hel, hsm]
  · constructor <;>
      simp [lazyStep, hw, hr, hel, hsm]

/-- C2 (amended): for every image element, the one-shot callback fires at
most once per attached watch — firings plus still-active watches exactly
balance the watches ever attached, so the firing count never exceeds the
attach count, and each qualifying firing detaches its watch immediately.
Because every re-run of the registration pass attaches a fresh watch to
every matching element, an element can fire once per pass, not once per
lifetime. -/
theorem lazy_oneshot_per_attached_watch (elems : List LazyElem)
    (events : List LazyEvent) (i : Nat) :
    ((runLazy (lazyInit elems) events).fireLog.count i
        + (runLazy (lazyInit elems) events).watches.count i
      = (runLazy (lazyInit elems) events).attachLog.count i)
      ∧ (runLazy (lazyInit elems) events).fireLog.count i
          ≤ (runLazy (lazyInit elems) events).attachLog.count i
      ∧ (∀ (t : LazyState) (j : Nat) (r : ℚ), j ∈ t.watches → 0 < r →
          j < t.elems.length →
          (lazyStep t (.fire j r)).watches = t.watches.erase j
            ∧ (lazyStep t (.fire j r)).fireLog = t.fireLog ++ [j]) := by
  have hbal := runLazy_balance events (lazyInit elems) (fun _ => rfl) i
  exact ⟨hbal, by omega, fun t j r hw hr hj => lazyStep_fire_detaches t j r hw hr hj⟩

/-- C2 witness: after one registration pass on a single image, a qualifying
firing detaches the watch and logs one firing. -/
theorem lazy_oneshot_per_attached_watch_witness :
    (lazyStep (runLazy (lazyInit [{ src := "ph", dataSrc := some "u1" }])
        [LazyEvent.registerPass]) (.fire 0 1)).watches
      = (runLazy (lazyInit [{ src := "ph", dataSrc := some "u1" }])
        [LazyEvent.registerPass]).watches.erase 0
    ∧ (lazyStep (runLazy (lazyInit [{ src := "ph", dataSrc := some "u1" }])
        [LazyEvent.registerPass]) (.fire 0 1)).fireLog
      = (runLazy (lazyInit [{ src := "ph", dataSrc := some "u1" }])
        [LazyEvent.registerPass]).fireLog ++ [0] :=
  (lazy_oneshot_per_attached_watch [{ src := "ph", dataSrc := some "u1" }]
      [LazyEvent.registerPass] 0).2.2
    (runLazy (lazyInit [{ src := "ph", dataSrc := some "u1" }]) [LazyEvent.registerPass])
    0 1 (by decide) (by decide) (by decide)

/-- C2 counterexample: an image whose source was already swapped fires again
after the registration pass re-runs (the effect rescans all `.card-img-top`
elements whenever `items` changes and attaches a fresh observer), so the
one-shot callback fires twice over the element's lifetime. -/
theorem lazy_callback_refires_after_rescan :
    (runLazy (lazyInit [{ src := "ph", dataSrc := some "u1" }])
        [.registerPass, .fire 0 1, .registerPass, .fire 0 1]).fireLog.count 0 = 2 := by
  decide

/-- C7 (amended): when a firing reaches an actively watched element whose
`data-src` is missing or empty, the callback records exactly one diagnostic
for that firing, leaves every element (hence the placeholder `src`)
unchanged, does not retry, and detaches the watch; the callback is a total
function, so it cannot crash. A re-run of the registration pass can attach
a new watch and record the diagnostic again. -/
theorem lazy_missing_src_leaves_placeholder (t : LazyState) (j : Nat) (r : ℚ)
    (el : LazyElem) (hw : j ∈ t.watches) (hr : 0 < r)
    (hel : t.elems[j]? = some el) (hm : srcMissing el.dataSrc = true) :
    (lazyStep t (.fire j r)).elems = t.elems
      ∧ (lazyStep t (.fire j r)).errorLog = t.errorLog ++ [j]
      ∧ (lazyStep t (.fire j r)).watches = t.watches.erase j
      ∧ (lazyStep t (.fire j r)).fireLog = t.fireLog ++ [j] := by
  refine ⟨?_, ?_, ?_, ?_⟩ <;> simp [lazyStep, hw, hr, hel, hm]

/-- C7 witness: a watched image with empty `data-src` keeps its placeholder
and yields one diagnostic when it becomes visible. -/
theorem lazy_missing_src_leaves_placeholder_witness :
    (lazyStep (runLazy (lazyInit [{ src := "ph", dataSrc := some "" }])
        [LazyEvent.registerPass]) (.fire 0 1)).elems
      = (runLazy (lazyInit [{ src := "ph", dataSrc := some "" }])
        [LazyEvent.registerPass]).elems
    ∧ (lazyStep (runLazy (lazyInit [{ src := "ph", dataSrc := some "" }])
        [LazyEvent.registerPass]) (.fire 0 1)).errorLog
      = (runLazy (lazyInit [{ src := "ph", dataSrc := some "" }])
        [LazyEvent.registerPass]).errorLog ++ [0] := by
  have h := lazy_missing_src_leaves_placeholder
    (runLazy (lazyInit [{ src := "ph", dataSrc := some "" }]) [LazyEvent.registerPass])
    0 1 { src := "ph", dataSrc := some "" } (by decide) (by decide) (by decide) (by decide)
  exact ⟨h.1, h.2.1⟩

/-- C7 counterexample: after the registration pass re-runs, a second watch
fires on the same missing-source element, so the diagnostic is recorded
twice for that element, not exactly once. -/
theorem lazy_missing_src_diag_repeats :
    (runLazy (lazyInit [{ src := "ph", dataSrc := some "" }])
        [.registerPass, .fire 0 1, .registerPass, .fire 0 1]).errorLog.count 0 = 2
      ∧ (runLazy (lazyInit [{ src := "ph", dataSrc := some "" }])
        [.registerPass, .fire 0 1, .registerPass, .fire 0 1]).elems
        = [{ src := "ph", dataSrc := some "" }] := by
  decide

/-- C8 counterexample: the initial state already refutes the claim — at
mount `imgData` is initialized to `{ images: [], fetching: true }`, so
`fetching` is true while no request has been issued and none is in
flight. -/
theorem fetching_true_before_first_request :
    (runSession []).img.fetching = true
      ∧ (runSession []).inFlight = false
      ∧ (runSession []).issued = 0 := by decide

/-- C8 (amended): `fetching` is initialized to true at mount, before the
first request is issued; after every fetch event — a request being issued or
a resolution (success or failure) arriving — `fetching` equals the in-flight
flag, fetches being serialized (one per page value). -/
theorem fetching_matches_inflight_after_fetch_events (s : SessionState)
    (e : SessionEvent) (h : e ≠ SessionEvent.unmount) :
    (sessionStep s e).img.fetching = (sessionStep s e).inFlight
      ∧ sessionInit.img.fetching = true := by
  cases e with
  | issue => exact ⟨rfl, rfl⟩
  | resolveOk records => exact ⟨rfl, rfl⟩
  | resolveFail => exact ⟨rfl, rfl⟩
  | unmount => exact absurd rfl h

/-- C8 witness: after the first request is issued from the mount state,
`fetching` and the in-flight flag agree. -/
theorem fetching_matches_inflight_after_fetch_events_witness :
    (sessionStep sessionInit SessionEvent.issue).img.fetching
      = (sessionStep sessionInit SessionEvent.issue).inFlight :=
  (fetching_matches_inflight_after_fetch_events sessionInit SessionEvent.issue
    (by decide)).1

/-- C9: the hooks install no teardown. Evaluated at the failing input — a
request in flight when the component unmounts, resolving afterwards — the
resolution still dispatches into the state container: the images list grows
from `[]` to one record after `mounted` has become false. Likewise a watch
attached by the registration pass stays attached, there being no detach
transition in the code at teardown. -/
theorem dispatch_after_unmount_mutates_state :
    (runSession [.issue, .unmount]).img.images = []
      ∧ (runSession [.issue, .unmount]).mounted = false
      ∧ (runSession [.issue, .unmount]).inFlight = true
      ∧ (runSession [.issue, .unmount,
          .resolveOk [{ id := "a", author := "X", download_url := "u1" }]]).mounted = false
      ∧ (runSession [.issue, .unmount,
          .resolveOk [{ id := "a", author := "X", download_url := "u1" }]]).img.images
        = [{ id := "a", author := "X", download_url := "u1" }]
      ∧ (runLazy (lazyInit [{ src := "ph", dataSrc := some "u1" }])
          [LazyEvent.registerPass]).watches = [0] := by decide
